import Mathlib

/-!
Verification of the window-discovery-and-matching core of the
`cosmic-app-focus` CLI (`src/main.rs`).

Identifiers are modelled as `List Char` (the Rust code only ever compares
them, lowercases them and tests dot-suffixes, all of which are
character-wise). Protocol object handles are modelled by their numeric
object ids (`Nat`): the Rust code only ever compares handles through
`Proxy::id`.
-/

set_option maxHeartbeats 1000000

namespace AppFocus

/-- Character-wise lowercasing, modelling `str::to_lowercase` as used on
identifiers in `src/main.rs`. -/
def lower (s : List Char) : List Char := s.map Char.toLower

/-- Model of `State::app_matches` (src/main.rs lines 90-97).  `target_lc` is the
target already lowercased by `State::new`; the candidate `app_id` is
lowercased and then compared for equality or a dot-suffix relation in
either direction (`candidate.ends_with("." + target_lc)` or
`target_lc.ends_with("." + candidate)`). -/
def app_matches (target_lc app_id : List Char) : Bool :=
  let candidate := lower app_id
  candidate == target_lc
    || List.isSuffixOf ('.' :: target_lc) candidate
    || List.isSuffixOf ('.' :: candidate) target_lc

/-- The matcher on raw identifiers: `State::new` stores
`target.to_lowercase()` in `target_lc`, then `app_matches` is applied to
the raw candidate. -/
def matchesId (target candidate : List Char) : Bool :=
  app_matches (lower target) candidate

/-- One tracked window (`TrackedToplevel`, src/main.rs lines 44-49).
Protocol handles are modelled by their object ids. -/
structure TrackedToplevel where
  foreign : Option Nat
  cosmic : Option Nat
  app_id : Option (List Char)
deriving DecidableEq, Inhabited

/-- Model of `TrackedToplevel::matches_foreign` (lines 52-57):
`self.foreign.map(|stored| stored.id() == handle.id()).unwrap_or(false)`. -/
def TrackedToplevel.matches_foreign (t : TrackedToplevel) (handle : Nat) : Bool :=
  t.foreign.any (fun stored => stored == handle)

/-- Model of `TrackedToplevel::matches_cosmic` (lines 59-64). -/
def TrackedToplevel.matches_cosmic (t : TrackedToplevel) (handle : Nat) : Bool :=
  t.cosmic.any (fun stored => stored == handle)

/-- The client state (`State`, src/main.rs lines 67-75).  `info` holds the
bound toplevel-info global's version number (the only attribute the code
ever reads from it); `seat`, `mgr` and `foreign_list` hold the bound
globals' object ids, `none` when unbound. -/
structure State where
  target_lc : List Char
  seat : Option Nat
  info : Option Nat
  mgr : Option Nat
  foreign_list : Option Nat
  toplevels : List TrackedToplevel
  match_handle : Option Nat
deriving DecidableEq, Inhabited

/-- Model of `State::new` (lines 78-88): lowercases the target, everything else
empty. -/
def State.new (target : List Char) : State :=
  { target_lc := lower target, seat := none, info := none, mgr := none,
    foreign_list := none, toplevels := [], match_handle := none }

/-- Model of `State::update_match_for_index` (lines 99-112): if the record at `idx`
has both a cosmic handle and an app_id and the app_id satisfies
`app_matches`, store the cosmic handle in the match slot (unconditionally
overwriting any previous value). -/
def update_match_for_index (s : State) (idx : Nat) : State :=
  match s.toplevels[idx]? with
  | some t =>
    match t.cosmic, t.app_id with
    | some cosmic, some app_id =>
      if app_matches s.target_lc app_id then { s with match_handle := some cosmic }
      else s
    | _, _ => s
  | none => s

/-- Model of `State::drop_match_if_stale` (lines 140-153): clear the match slot
unless some tracked record still holds the matched cosmic handle. -/
def drop_match_if_stale (s : State) : State :=
  match s.match_handle with
  | some matched =>
    if s.toplevels.any (fun tracked => tracked.cosmic.any (fun c => c == matched)) then s
    else { s with match_handle := none }
  | none => s

/-- Model of `State::remove_by_foreign` (lines 114-125): retain records whose
foreign handle is absent or different, then drop a stale match. -/
def remove_by_foreign (s : State) (handle : Nat) : State :=
  drop_match_if_stale
    { s with toplevels :=
        s.toplevels.filter (fun tracked => tracked.foreign.all (fun f => f != handle)) }

/-- Model of `State::remove_by_cosmic` (lines 127-138). -/
def remove_by_cosmic (s : State) (handle : Nat) : State :=
  drop_match_if_stale
    { s with toplevels :=
        s.toplevels.filter (fun tracked => tracked.cosmic.all (fun c => c != handle)) }

/-- The dispatched protocol events handled in src/main.rs.
`foreignAnnounce` carries the object id the runtime would assign to the
rich child handle requested by `get_cosmic_toplevel` (used only when the
info global's version is ≥ 2); `cosmicAnnounce` is the rich channel's
standalone `Toplevel` announcement, whose `Dispatch` handler body is
empty (lines 307-316). -/
inductive Event where
  | foreignAnnounce (foreignId : Nat) (childId : Nat)
  | foreignAppId (foreignId : Nat) (app_id : List Char)
  | foreignClosed (foreignId : Nat)
  | cosmicAnnounce (cosmicId : Nat)
  | cosmicAppId (cosmicId : Nat) (app_id : List Char)
  | cosmicClosed (cosmicId : Nat)
deriving DecidableEq

/-- One dispatch callback (the `Dispatch` impls, src/main.rs lines
183-325). -/
def step (s : State) (e : Event) : State :=
  match e with
  | .foreignAnnounce fid childId =>
    let cosmic_handle := s.info.bind (fun version =>
      if version ≥ 2 then some childId else none)
    { s with toplevels := s.toplevels ++
        [{ foreign := some fid, cosmic := cosmic_handle, app_id := none }] }
  | .foreignAppId fid app_id =>
    match s.toplevels.findIdx? (fun tracked => tracked.matches_foreign fid) with
    | some idx =>
      update_match_for_index
        { s with toplevels :=
            s.toplevels.modify (fun tracked => { tracked with app_id := some app_id }) idx }
        idx
    | none => s
  | .foreignClosed fid => remove_by_foreign s fid
  | .cosmicAnnounce _ => s
  | .cosmicAppId cid app_id =>
    match s.toplevels.findIdx? (fun tracked => tracked.matches_cosmic cid) with
    | some idx =>
      update_match_for_index
        { s with toplevels :=
            s.toplevels.modify (fun tracked => { tracked with app_id := some app_id }) idx }
        idx
    | none =>
      let matched := app_matches s.target_lc app_id
      let s1 := { s with toplevels := s.toplevels ++
        [{ foreign := none, cosmic := some cid, app_id := some app_id }] }
      if matched then { s1 with match_handle := some cid } else s1
  | .cosmicClosed cid => remove_by_cosmic s cid

/-- Process a batch of dispatched events in order (what one `roundtrip` or
`dispatch_pending` call delivers). -/
def run (s : State) (es : List Event) : State := es.foldl step s

/-- Discriminator for the one event kind that can introduce a rich handle
into the registry on its own. -/
def Event.isCosmicAppId : Event → Bool
  | .cosmicAppId _ _ => true
  | _ => false

/-- Outcome of the fallback subprocess (`Command::status`, lines 440-444):
either it could not be started, or it ran and exited with the given raw
status (`0` = success, mirroring `ExitStatus::success`). -/
inductive LaunchOutcome where
  | cannotStart (msg : List Char)
  | exited (code : Nat)
deriving DecidableEq

/-- The `anyhow` error sites of the modelled part of `main`
(src/main.rs lines 374-448), one constructor per abort site. -/
inductive Err where
  | bindInfoFailed
  | bindMgrFailed
  | launchStartFailed (msg : List Char)
  | launcherExited (code : Nat)
deriving DecidableEq

/-- Observable side effects of `main`: the single `mgr.activate(handle,
seat)` request (line 424) or the single `sh -lc <cmd>` spawn (lines
440-443). -/
inductive Action where
  | activate (handle : Nat) (seat : Nat)
  | spawn (cmd : List Char)
deriving DecidableEq

/-- Outcomes of the four `globals.bind` calls in `main` (lines 367-405):
`none` models a failed bind; `info` carries the bound version (the code
accepts 1..=3), the others carry object ids. -/
structure Binds where
  seat : Option Nat
  info : Option Nat
  mgr : Option Nat
  foreignList : Option Nat
deriving DecidableEq

/-- The default fallback command `gtk-launch <app_id>` (line 357). -/
def launch_cmd_default (app_id : List Char) : List Char :=
  "gtk-launch ".data ++ app_id

/-- The discovery loop body (`for _ in 0..5`, lines 407-415): each
iteration performs one blocking roundtrip — delivering the batch
`script i` of dispatched events — and breaks when the match slot is set.
Returns the resulting state and the number of roundtrips performed. -/
def discovery_loop (script : Nat → List Event) (s : State) (i : Nat) : Nat → State × Nat
  | 0 => (s, 0)
  | fuel + 1 =>
    let s1 := run s (script i)
    if s1.match_handle.isSome then (s1, 1)
    else
      let r := discovery_loop script s1 (i + 1) fuel
      (r.1, r.2 + 1)

/-- The full discovery loop of `main`: budget of 5 roundtrips. -/
def discoveryRounds (script : Nat → List Event) (s : State) : State × Nat :=
  discovery_loop script s 0 5

/-- Specification-side cumulative view: the state after the batches
`script i, script (i+1), …` of `n` consecutive roundtrips, with no early
exit.  Used to state the convergence property. -/
def runScript (script : Nat → List Event) (s : State) (i : Nat) : Nat → State
  | 0 => s
  | n + 1 => runScript script (run s (script i)) (i + 1) n

/-- Observable outcome of one `main` execution: the returned
`anyhow::Result`, the number of blocking roundtrips performed, the number
of non-blocking `dispatch_pending` drains performed before the
activate-or-fallback decision, the actions issued, and the number of
warnings logged. -/
structure MainOutcome where
  result : Except Err Unit
  rounds : Nat
  drains_before_decision : Nat
  actions : List Action
  warnings : Nat

/-- The state as populated by a successful binding phase (lines 365-405):
seat and foreign-list stored as bound (possibly `none`), the required info
version and manager id stored. -/
def initialState (app_id : List Char) (b : Binds) (version mgrId : Nat) : State :=
  { State.new app_id with
      seat := b.seat
      info := some version
      mgr := some mgrId
      foreign_list := b.foreignList }

/-- The state at the activate-or-fallback decision (line 419): after the
discovery loop and the single non-blocking drain of already-queued events
(line 417) delivering `pending`. -/
def decisionState (app_id : List Char) (b : Binds) (version mgrId : Nat)
    (script : Nat → List Event) (pending : List Event) : State :=
  run (discoveryRounds script (initialState app_id b version mgrId)).1 pending

/-- Process exit code: Rust's `Termination` impl for `Result` maps `Ok` to
0 and any `Err` to 1. -/
def exitCode : Except Err Unit → Nat
  | .ok _ => 0
  | .error _ => 1

/-- Model of `main` (src/main.rs lines 351-449) from the binding phase
on, abstracting the compositor as `script` (the events each blocking
roundtrip delivers) and `pending` (the events the following non-blocking
drain delivers), and the fallback subprocess as `launch`. -/
def mainModel (app_id : List Char) (launchOpt : Option (List Char)) (b : Binds)
    (script : Nat → List Event) (pending : List Event)
    (launch : LaunchOutcome) : MainOutcome :=
  let launch_cmd := launchOpt.getD (launch_cmd_default app_id)
  let wSeat := if b.seat.isNone then 1 else 0
  match b.info with
  | none =>
    { result := .error .bindInfoFailed, rounds := 0, drains_before_decision := 0,
      actions := [], warnings := wSeat }
  | some version =>
    let wVer := if version < 2 then 1 else 0
    match b.mgr with
    | none =>
      { result := .error .bindMgrFailed, rounds := 0, drains_before_decision := 0,
        actions := [], warnings := wSeat + wVer }
    | some mgrId =>
      let wForeign := if b.foreignList.isNone then 1 else 0
      let w := wSeat + wVer + wForeign
      let n := (discoveryRounds script (initialState app_id b version mgrId)).2
      let sFinal := decisionState app_id b version mgrId script pending
      match sFinal.match_handle, sFinal.seat, sFinal.mgr with
      | some handle, some seatId, some _ =>
        { result := .ok (), rounds := n, drains_before_decision := 1,
          actions := [.activate handle seatId], warnings := w }
      | _, _, _ =>
        match launch with
        | .cannotStart msg =>
          { result := .error (.launchStartFailed msg), rounds := n,
            drains_before_decision := 1, actions := [.spawn launch_cmd],
            warnings := w }
        | .exited code =>
          { result := if code == 0 then .ok () else .error (.launcherExited code),
            rounds := n, drains_before_decision := 1,
            actions := [.spawn launch_cmd], warnings := w }

/-- Claim C1: `matchesId(target, candidate)` returns `true` iff, after
lowercasing both strings, candidate equals target, or candidate ends with
`"."` followed by target, or target ends with `"."` followed by candidate;
the predicate depends only on the lowercased forms (case-insensitivity),
and there is no spurious substring match: `matchesId "fire" "firefox"` is
`false`. -/
theorem C1_matcher_policy :
    (∀ t c : List Char, matchesId t c = true ↔
      (lower c = lower t ∨ (∃ p, lower c = p ++ '.' :: lower t) ∨
        (∃ p, lower t = p ++ '.' :: lower c))) ∧
    (∀ t t' c c' : List Char, lower t = lower t' → lower c = lower c' →
      matchesId t c = matchesId t' c') ∧
    matchesId "fire".data "firefox".data = false := by
  refine ⟨?_, ?_, by decide⟩
  · intro t c
    simp only [matchesId, app_matches, Bool.or_eq_true, beq_iff_eq,
      List.isSuffixOf_iff_suffix]
    constructor
    · rintro ((h | ⟨p, hp⟩) | ⟨p, hp⟩)
      · exact Or.inl h
      · exact Or.inr (Or.inl ⟨p, hp.symm⟩)
      · exact Or.inr (Or.inr ⟨p, hp.symm⟩)
    · rintro (h | ⟨p, hp⟩ | ⟨p, hp⟩)
      · exact Or.inl (Or.inl h)
      · exact Or.inl (Or.inr ⟨p, hp.symm⟩)
      · exact Or.inr ⟨p, hp.symm⟩
  · intro t t' c c' h1 h2
    simp only [matchesId, app_matches, h1, h2]

/-- Witness for the hypothesis-bearing conjunct of C1: case-insensitivity
instantiated at `"Fire"`/`"fire"` and `"FIREFOX"`/`"firefox"`. -/
theorem C1_matcher_policy_witness :
    matchesId "Fire".data "FIREFOX".data = matchesId "fire".data "firefox".data :=
  C1_matcher_policy.2.1 "Fire".data "fire".data "FIREFOX".data "firefox".data
    (by decide) (by decide)

/-- Counterexample to **C3** as stated: two empty identifiers do match,
because the equality branch of `app_matches` compares `"" == ""`. -/
theorem C3_counterexample : matchesId [] [] = true := by decide

/-- A list of characters ends in a literal dot iff it decomposes as
`p ++ ['.']`. -/
theorem ends_dot_iff (x : List Char) :
    List.isSuffixOf ['.'] x = true ↔ ∃ p, x = p ++ ['.'] := by
  rw [List.isSuffixOf_iff_suffix]
  constructor
  · rintro ⟨p, hp⟩
    exact ⟨p, hp.symm⟩
  · rintro ⟨p, hp⟩
    exact ⟨p, hp.symm⟩

/-- Claim C3, amended: Empty identifiers never match a non-empty one —
in particular `matchesId "" "x" = false` and `matchesId "x" "" = false` —
except in two corner cases: both identifiers empty (the equality branch
compares `"" == ""` and returns `true`), or the non-empty side's
lowercased form ends in a literal `'.'`, which makes the dot-suffix test
against the empty string succeed.  The third conjunct characterises every
case in which at least one side is empty. -/
theorem C3_empty_amended :
    matchesId [] "x".data = false ∧
    matchesId "x".data [] = false ∧
    (∀ t c : List Char, t = [] ∨ c = [] →
      (matchesId t c = true ↔
        ((t = [] ∧ c = []) ∨ (∃ p, lower t = p ++ ['.']) ∨
          (∃ p, lower c = p ++ ['.'])))) := by
  refine ⟨by decide, by decide, ?_⟩
  rintro t c (rfl | rfl)
  · cases c with
    | nil => simp [matchesId, app_matches, lower]
    | cons a as =>
      have h1 : matchesId [] (a :: as) = true ↔
          List.isSuffixOf ['.'] (lower (a :: as)) = true := by
        simp [matchesId, app_matches, lower]
      rw [h1, ends_dot_iff]
      simp [lower]
  · cases t with
    | nil => simp [matchesId, app_matches, lower]
    | cons a as =>
      have h1 : matchesId (a :: as) [] = true ↔
          List.isSuffixOf ['.'] (lower (a :: as)) = true := by
        simp [matchesId, app_matches, lower]
      rw [h1, ends_dot_iff]
      simp [lower]

/-- Witness for C3 (amended) instantiated at `target = "x"`,
`candidate = ""`. -/
theorem C3_empty_amended_witness :
    matchesId "x".data [] = true ↔
      (("x".data = ([] : List Char) ∧ ([] : List Char) = []) ∨
        (∃ p, lower "x".data = p ++ ['.']) ∨
        (∃ p, lower ([] : List Char) = p ++ ['.'])) :=
  C3_empty_amended.2.2 "x".data [] (Or.inr rfl)

/-- Counterexample to **C2** as stated: with target `"app"`, standalone
rich handle 1 announces `app_id = "app"` and sets the match slot; a later
standalone rich handle 2 announcing the same satisfying `app_id`
overwrites the slot, which ends holding handle 2, not the
first-satisfying handle 1. -/
theorem C2_counterexample :
    (run (State.new "app".data)
      [Event.cosmicAppId 1 "app".data, Event.cosmicAppId 2 "app".data]).match_handle
        = some 2 ∧ some (2 : Nat) ≠ some 1 := by
  constructor
  · decide
  · decide

/-- Claim C2, amended: The match slot is overwritten by every satisfying
identifier event, on either channel: whenever an identifier event arrives
for a standalone rich handle whose app_id satisfies the policy, the slot
afterwards holds that handle; and whenever an identifier event arrives —
on the rich channel or on the generic foreign channel — for a tracked
record that has a rich handle, with a satisfying app_id, the slot
afterwards holds that record's rich handle.  The most recent satisfying
record wins; there is no first-wins guard. -/
theorem C2_amended_latest_satisfier_wins :
    (∀ (s : State) (cid : Nat) (app : List Char),
      s.toplevels.findIdx? (fun t => t.matches_cosmic cid) = none →
      app_matches s.target_lc app = true →
      (step s (Event.cosmicAppId cid app)).match_handle = some cid) ∧
    (∀ (s : State) (cid idx : Nat) (app : List Char) (t : TrackedToplevel) (ch : Nat),
      s.toplevels.findIdx? (fun t => t.matches_cosmic cid) = some idx →
      s.toplevels[idx]? = some t →
      t.cosmic = some ch →
      app_matches s.target_lc app = true →
      (step s (Event.cosmicAppId cid app)).match_handle = some ch) ∧
    (∀ (s : State) (fid idx : Nat) (app : List Char) (t : TrackedToplevel) (ch : Nat),
      s.toplevels.findIdx? (fun t => t.matches_foreign fid) = some idx →
      s.toplevels[idx]? = some t →
      t.cosmic = some ch →
      app_matches s.target_lc app = true →
      (step s (Event.foreignAppId fid app)).match_handle = some ch) := by
  refine ⟨?_, ?_, ?_⟩
  · intro s cid app hfind hmatch
    simp only [step, hfind, hmatch, if_true]
  · intro s cid idx app t ch hfind hget hcos hmatch
    simp only [step, hfind, update_match_for_index]
    simp only [List.getElem?_modify_eq, hget, Option.map_some, hcos, hmatch, if_true]
  · intro s fid idx app t ch hfind hget hcos hmatch
    simp only [step, hfind, update_match_for_index]
    simp only [List.getElem?_modify_eq, hget, Option.map_some, hcos, hmatch, if_true]

/-- Witness for C2 (amended), exercising the foreign-channel route: a
linked record (foreign handle 1, rich handle 2) receives a satisfying
`app_id = "app"` on the generic channel, and the slot — previously holding
handle 9 — is overwritten with the record's rich handle 2. -/
theorem C2_amended_latest_satisfier_wins_witness :
    (step { target_lc := "app".data, seat := none, info := none, mgr := none,
            foreign_list := none,
            toplevels := [{ foreign := some 1, cosmic := some 2, app_id := none }],
            match_handle := some 9 }
      (Event.foreignAppId 1 "app".data)).match_handle = some 2 :=
  C2_amended_latest_satisfier_wins.2.2
    { target_lc := "app".data, seat := none, info := none, mgr := none,
      foreign_list := none,
      toplevels := [{ foreign := some 1, cosmic := some 2, app_id := none }],
      match_handle := some 9 }
    1 0 "app".data { foreign := some 1, cosmic := some 2, app_id := none } 2
    (by decide) (by decide) (by decide) (by decide)

/-- Counterexample to **C9** as stated: a standalone rich-channel
`Toplevel` announcement (handle 5) creates no registry record at
announcement time — the `Dispatch` handler for the info object is empty,
so the registry is still empty afterwards. -/
theorem C9_counterexample :
    (run (State.new "x".data) [Event.cosmicAnnounce 5]).toplevels = [] := by
  decide

/-- Claim C9, amended: A standalone rich-channel announcement creates no
record at announcement time (the handler is a no-op); the unlinked record
for a standalone rich handle is created only when the handle's first
identifier event is processed, carrying that identifier. -/
theorem C9_standalone_record_at_app_id :
    (∀ (s : State) (cid : Nat), step s (Event.cosmicAnnounce cid) = s) ∧
    (∀ (s : State) (cid : Nat) (app : List Char),
      s.toplevels.findIdx? (fun t => t.matches_cosmic cid) = none →
      (step s (Event.cosmicAppId cid app)).toplevels =
        s.toplevels ++ [{ foreign := none, cosmic := some cid, app_id := some app }]) := by
  constructor
  · intro s cid; rfl
  · intro s cid app hfind
    simp only [step, hfind]
    cases app_matches s.target_lc app <;> simp

/-- Witness for C9 (amended): the first identifier event for standalone
handle 5 appends the unlinked record. -/
theorem C9_standalone_record_at_app_id_witness :
    (step (State.new "x".data) (Event.cosmicAppId 5 "y".data)).toplevels =
      (State.new "x".data).toplevels ++
        [{ foreign := none, cosmic := some 5, app_id := some "y".data }] :=
  C9_standalone_record_at_app_id.2 (State.new "x".data) 5 "y".data (by decide)

/-- The function `update_match_for_index` never touches the registry. -/
theorem update_match_toplevels (s : State) (idx : Nat) :
    (update_match_for_index s idx).toplevels = s.toplevels := by
  unfold update_match_for_index
  split
  · split
    · split <;> rfl
    · rfl
  · rfl

/-- If `update_match_for_index` leaves the slot holding `m`, either it was
already there or some tracked record holds `m` as its cosmic handle. -/
theorem update_match_match_handle (s : State) (idx : Nat) (m : Nat)
    (h : (update_match_for_index s idx).match_handle = some m) :
    s.match_handle = some m ∨ ∃ t ∈ s.toplevels, t.cosmic = some m := by
  unfold update_match_for_index at h
  split at h
  · next t hg =>
    split at h
    · next cosmic app_id hcos happ =>
      split at h
      · refine Or.inr ⟨t, List.getElem?_mem hg, ?_⟩
        simp only at h
        rw [hcos]
        exact congrArg some (Option.some.inj h)
      · exact Or.inl h
    · exact Or.inl h
  · exact Or.inl h

/-- The function `drop_match_if_stale` never touches the registry. -/
theorem drop_match_toplevels (s : State) :
    (drop_match_if_stale s).toplevels = s.toplevels := by
  unfold drop_match_if_stale
  split
  · split <;> rfl
  · rfl

/-- If the slot still holds `m` after `drop_match_if_stale`, some tracked
record holds `m` as its cosmic handle. -/
theorem drop_match_match_handle (s : State) (m : Nat)
    (h : (drop_match_if_stale s).match_handle = some m) :
    ∃ t ∈ s.toplevels, t.cosmic = some m := by
  unfold drop_match_if_stale at h
  split at h
  · next matched hm =>
    split at h
    · next hany =>
      rw [hm] at h
      obtain ⟨t, ht, hp⟩ := List.any_eq_true.1 hany
      refine ⟨t, ht, ?_⟩
      cases hc : t.cosmic with
      | none => rw [hc] at hp; simp at hp
      | some c =>
        rw [hc] at hp
        simp only [Option.any_some, beq_iff_eq] at hp
        rw [hp, ← Option.some.inj h]
    · simp at h
  · next hm => rw [hm] at h; exact absurd h (by simp)

/-- The function `drop_match_if_stale` is the identity when the slot is already empty. -/
theorem drop_match_of_none (s : State) (h : s.match_handle = none) :
    drop_match_if_stale s = s := by
  unfold drop_match_if_stale
  rw [h]

/-- Single dispatch steps only ever (re)point the match slot at a handle
that some tracked record holds as its rich (`cosmic`) handle. -/
theorem step_match_is_cosmic (s : State) (e : Event) (m : Nat)
    (h : (step s e).match_handle = some m) :
    s.match_handle = some m ∨ ∃ t ∈ (step s e).toplevels, t.cosmic = some m := by
  cases e with
  | foreignAnnounce fid childId =>
    simp only [step] at h
    exact Or.inl h
  | foreignAppId fid app =>
    cases hfind : s.toplevels.findIdx? (fun tracked => tracked.matches_foreign fid) with
    | none =>
      simp only [step, hfind] at h
      exact Or.inl h
    | some idx =>
      simp only [step, hfind] at h ⊢
      rcases update_match_match_handle _ idx m h with h1 | ⟨t, ht, hc⟩
      · exact Or.inl h1
      · rw [update_match_toplevels]
        exact Or.inr ⟨t, ht, hc⟩
  | foreignClosed fid =>
    simp only [step, remove_by_foreign] at h ⊢
    obtain ⟨t, ht, hc⟩ := drop_match_match_handle _ m h
    rw [drop_match_toplevels]
    exact Or.inr ⟨t, ht, hc⟩
  | cosmicAnnounce cid =>
    exact Or.inl h
  | cosmicAppId cid app =>
    cases hfind : s.toplevels.findIdx? (fun tracked => tracked.matches_cosmic cid) with
    | some idx =>
      simp only [step, hfind] at h ⊢
      rcases update_match_match_handle _ idx m h with h1 | ⟨t, ht, hc⟩
      · exact Or.inl h1
      · rw [update_match_toplevels]
        exact Or.inr ⟨t, ht, hc⟩
    | none =>
      cases hmatch : app_matches s.target_lc app with
      | false =>
        simp only [step, hfind, hmatch, Bool.false_eq_true, if_false] at h
        exact Or.inl h
      | true =>
        simp only [step, hfind, hmatch, if_true] at h ⊢
        refine Or.inr ⟨{ foreign := none, cosmic := some cid, app_id := some app }, ?_, ?_⟩
        · exact List.mem_append.2 (Or.inr (List.mem_singleton.2 rfl))
        · simpa using h
  | cosmicClosed cid =>
    simp only [step, remove_by_cosmic] at h ⊢
    obtain ⟨t, ht, hc⟩ := drop_match_match_handle _ m h
    rw [drop_match_toplevels]
    exact Or.inr ⟨t, ht, hc⟩

/-- Rewriting a record's `app_id` keeps every record cosmic-less. -/
theorem forall_cosmic_none_modify (app : List Char) :
    ∀ (l : List TrackedToplevel) (idx : Nat), (∀ t ∈ l, t.cosmic = none) →
      ∀ t ∈ l.modify (fun tracked => { tracked with app_id := some app }) idx,
        t.cosmic = none := by
  intro l
  induction l with
  | nil => intro idx h t ht; simp at ht
  | cons x xs ih =>
    intro idx h t ht
    cases idx with
    | zero =>
      rw [List.modify_zero_cons] at ht
      rcases List.mem_cons.1 ht with rfl | hmem
      · exact h x (List.mem_cons_self x xs)
      · exact h t (List.mem_cons_of_mem x hmem)
    | succ n =>
      rw [List.modify_succ_cons] at ht
      rcases List.mem_cons.1 ht with rfl | hmem
      · exact h t (List.mem_cons_self t xs)
      · exact ih n (fun u hu => h u (List.mem_cons_of_mem x hu)) t hmem

/-- The function `update_match_for_index` is the identity on a registry in which no
record holds a rich handle. -/
theorem update_match_no_cosmic (s : State) (idx : Nat)
    (h : ∀ t ∈ s.toplevels, t.cosmic = none) :
    update_match_for_index s idx = s := by
  unfold update_match_for_index
  split
  · next t hg =>
    split
    · next cosmic app_id hcos happ =>
      have := h t (List.getElem?_mem hg)
      rw [this] at hcos
      exact absurd hcos (by simp)
    · rfl
  · rfl

/-- With an info global of version < 2 bound and no rich-channel
identifier events, dispatch preserves: the info version, an empty match
slot, and the absence of rich handles from every record. -/
theorem step_generic_only (v : Nat) (hv : v < 2) (s : State) (e : Event)
    (hinfo : s.info = some v) (he : e.isCosmicAppId = false)
    (hm : s.match_handle = none) (hc : ∀ t ∈ s.toplevels, t.cosmic = none) :
    (step s e).info = some v ∧ (step s e).match_handle = none ∧
      ∀ t ∈ (step s e).toplevels, t.cosmic = none := by
  cases e with
  | foreignAnnounce fid childId =>
    refine ⟨hinfo, hm, ?_⟩
    intro t ht
    simp only [step, hinfo, Option.some_bind, if_neg (Nat.not_le.2 hv)] at ht
    rcases List.mem_append.1 ht with hmem | hmem
    · exact hc t hmem
    · rw [List.mem_singleton.1 hmem]
  | foreignAppId fid app =>
    cases hfind : s.toplevels.findIdx? (fun tracked => tracked.matches_foreign fid) with
    | none => simp only [step, hfind]; exact ⟨hinfo, hm, hc⟩
    | some idx =>
      have hc2 := forall_cosmic_none_modify app s.toplevels idx hc
      have heq : step s (Event.foreignAppId fid app) =
          { s with toplevels :=
              s.toplevels.modify (fun tracked => { tracked with app_id := some app }) idx } := by
        simp only [step, hfind]
        exact update_match_no_cosmic _ idx hc2
      rw [heq]
      exact ⟨hinfo, hm, hc2⟩
  | foreignClosed fid =>
    have heq : step s (Event.foreignClosed fid) =
        { s with toplevels :=
            s.toplevels.filter (fun tracked => tracked.foreign.all (fun f => f != fid)) } := by
      simp only [step, remove_by_foreign]
      exact drop_match_of_none _ hm
    rw [heq]
    exact ⟨hinfo, hm, fun t ht => hc t (List.mem_filter.1 ht).1⟩
  | cosmicAnnounce cid =>
    exact ⟨hinfo, hm, hc⟩
  | cosmicAppId cid app =>
    simp [Event.isCosmicAppId] at he
  | cosmicClosed cid =>
    have heq : step s (Event.cosmicClosed cid) =
        { s with toplevels :=
            s.toplevels.filter (fun tracked => tracked.cosmic.all (fun c => c != cid)) } := by
      simp only [step, remove_by_cosmic]
      exact drop_match_of_none _ hm
    rw [heq]
    exact ⟨hinfo, hm, fun t ht => hc t (List.mem_filter.1 ht).1⟩

/-- Iterated form of `step_generic_only`. -/
theorem run_generic_only (v : Nat) (hv : v < 2) :
    ∀ (es : List Event), (∀ e ∈ es, e.isCosmicAppId = false) →
    ∀ (s : State), s.info = some v → s.match_handle = none →
      (∀ t ∈ s.toplevels, t.cosmic = none) →
      (run s es).match_handle = none := by
  intro es
  induction es with
  | nil => intro _ s _ hm _; exact hm
  | cons e rest ih =>
    intro hall s hinfo hm hc
    have hstep := step_generic_only v hv s e hinfo
      (hall e (List.mem_cons_self e rest)) hm hc
    exact ih (fun x hx => hall x (List.mem_cons_of_mem e hx)) (step s e)
      hstep.1 hstep.2.1 hstep.2.2

/-- Claim C10: The match slot only ever holds a rich (cosmic) handle held by
a tracked record: a single step either leaves the slot's value in place or
points it at some record's rich handle; consequently, when the rich info
global is bound at version < 2 (so generic announcements get no rich child
handle) and no rich-channel identifier event ever arrives — i.e. windows
are announced only on the generic foreign-toplevel channel — the match
slot stays empty forever, and no such window can be selected for
activation. -/
theorem C10_only_rich_handles_match :
    (∀ (s : State) (e : Event) (m : Nat),
      (step s e).match_handle = some m →
      s.match_handle = some m ∨ ∃ t ∈ (step s e).toplevels, t.cosmic = some m) ∧
    (∀ (target : List Char) (v : Nat) (es : List Event),
      v < 2 → (∀ e ∈ es, e.isCosmicAppId = false) →
      (run { State.new target with info := some v } es).match_handle = none) := by
  constructor
  · exact step_match_is_cosmic
  · intro target v es hv hall
    exact run_generic_only v hv es hall _ rfl rfl (fun t ht => absurd ht (by simp [State.new]))

/-- Witness for C10: a generic-only trace (announce + identifier that does
satisfy the target) under info version 1 never sets the match slot. -/
theorem C10_only_rich_handles_match_witness :
    (run { State.new "x".data with info := some 1 }
      [Event.foreignAnnounce 1 2, Event.foreignAppId 1 "x".data]).match_handle = none :=
  C10_only_rich_handles_match.2 "x".data 1
    [Event.foreignAnnounce 1 2, Event.foreignAppId 1 "x".data]
    (by decide) (by decide)

/-- An optional handle different from `some i` passes the retain test of
`remove_by_foreign` / `remove_by_cosmic`. -/
theorem all_ne_of_ne (x : Option Nat) (i : Nat) (h : x ≠ some i) :
    x.all (fun v => v != i) = true := by
  cases hx : x with
  | none => rfl
  | some v =>
    refine bne_iff_ne.2 (fun hv => h ?_)
    rw [hx, hv]

/-- An optional handle different from `some m` fails the keep test of
`drop_match_if_stale`. -/
theorem cosmic_any_eq_false (x : Option Nat) (m : Nat) (h : x ≠ some m) :
    x.any (fun c => c == m) = false := by
  cases hx : x with
  | none => rfl
  | some c =>
    refine beq_eq_false_iff_ne.2 (fun hc => h ?_)
    rw [hx, hc]

/-- Filtering out exactly the one record that fails the keep test removes
it and leaves every other record unchanged. -/
theorem filter_remove (keep : TrackedToplevel → Bool) (l1 l2 : List TrackedToplevel)
    (t : TrackedToplevel) (h1 : ∀ u ∈ l1 ++ l2, keep u = true) (ht : keep t = false) :
    (l1 ++ t :: l2).filter keep = l1 ++ l2 := by
  have hl1 : l1.filter keep = l1 :=
    List.filter_eq_self.2 (fun u hu => h1 u (List.mem_append.2 (Or.inl hu)))
  have hl2 : l2.filter keep = l2 :=
    List.filter_eq_self.2 (fun u hu => h1 u (List.mem_append.2 (Or.inr hu)))
  rw [List.filter_append, List.filter_cons, ht, hl1, hl2]
  simp

/-- Closing the foreign (generic) handle of a tracked record whose foreign
id is unique among records removes exactly that record; the match slot is
cleared iff that record held the matched rich handle.  The `hheld` and
`huniqm` hypotheses state the reachable-state facts that the matched
handle is held by some record and, if the removed record holds it, by no
other. -/
theorem closed_foreign_removal (s : State) (l1 l2 : List TrackedToplevel)
    (t : TrackedToplevel) (fid : Nat)
    (hs : s.toplevels = l1 ++ t :: l2)
    (ht : t.foreign = some fid)
    (huniq : ∀ u ∈ l1 ++ l2, u.foreign ≠ some fid)
    (hheld : ∀ m, s.match_handle = some m → ∃ u ∈ s.toplevels, u.cosmic = some m)
    (huniqm : ∀ m, s.match_handle = some m → t.cosmic = some m →
      ∀ u ∈ l1 ++ l2, u.cosmic ≠ some m) :
    (step s (Event.foreignClosed fid)).toplevels = l1 ++ l2 ∧
    (s.match_handle = none → (step s (Event.foreignClosed fid)).match_handle = none) ∧
    (∀ m, s.match_handle = some m → t.cosmic = some m →
      (step s (Event.foreignClosed fid)).match_handle = none) ∧
    (∀ m, s.match_handle = some m → t.cosmic ≠ some m →
      (step s (Event.foreignClosed fid)).match_handle = some m) := by
  have hfil : s.toplevels.filter (fun tracked => tracked.foreign.all (fun f => f != fid))
      = l1 ++ l2 := by
    rw [hs]
    exact filter_remove _ l1 l2 t
      (fun u hu => all_ne_of_ne _ _ (huniq u hu)) (by rw [ht]; simp)
  have hstep : step s (Event.foreignClosed fid) =
      drop_match_if_stale { s with toplevels := l1 ++ l2 } := by
    simp only [step, remove_by_foreign, hfil]
  rw [hstep]
  refine ⟨?_, ?_, ?_, ?_⟩
  · rw [drop_match_toplevels]
  · intro hm
    rw [drop_match_of_none { s with toplevels := l1 ++ l2 } hm]
    exact hm
  · intro m hm htc
    have hany : (l1 ++ l2).any (fun tracked => tracked.cosmic.any (fun c => c == m))
        = false :=
      List.any_eq_false.2 (fun u hu hp => by
        rw [cosmic_any_eq_false u.cosmic m (huniqm m hm htc u hu)] at hp
        exact absurd hp (by simp))
    simp [drop_match_if_stale, hm, hany]
  · intro m hm htc
    obtain ⟨u, hu, huc⟩ := hheld m hm
    rw [hs] at hu
    have hu2 : u ∈ l1 ++ l2 := by
      rcases List.mem_append.1 hu with h1 | h2
      · exact List.mem_append.2 (Or.inl h1)
      · rcases List.mem_cons.1 h2 with rfl | h3
        · exact absurd huc htc
        · exact List.mem_append.2 (Or.inr h3)
    have hany : (l1 ++ l2).any (fun tracked => tracked.cosmic.any (fun c => c == m))
        = true :=
      List.any_eq_true.2 ⟨u, hu2, by rw [huc]; simp⟩
    simp [drop_match_if_stale, hm, hany]

/-- The cosmic-side analogue of `closed_foreign_removal`. -/
theorem closed_cosmic_removal (s : State) (l1 l2 : List TrackedToplevel)
    (t : TrackedToplevel) (cid : Nat)
    (hs : s.toplevels = l1 ++ t :: l2)
    (ht : t.cosmic = some cid)
    (huniq : ∀ u ∈ l1 ++ l2, u.cosmic ≠ some cid)
    (hheld : ∀ m, s.match_handle = some m → ∃ u ∈ s.toplevels, u.cosmic = some m)
    (huniqm : ∀ m, s.match_handle = some m → t.cosmic = some m →
      ∀ u ∈ l1 ++ l2, u.cosmic ≠ some m) :
    (step s (Event.cosmicClosed cid)).toplevels = l1 ++ l2 ∧
    (s.match_handle = none → (step s (Event.cosmicClosed cid)).match_handle = none) ∧
    (∀ m, s.match_handle = some m → t.cosmic = some m →
      (step s (Event.cosmicClosed cid)).match_handle = none) ∧
    (∀ m, s.match_handle = some m → t.cosmic ≠ some m →
      (step s (Event.cosmicClosed cid)).match_handle = some m) := by
  have hfil : s.toplevels.filter (fun tracked => tracked.cosmic.all (fun c => c != cid))
      = l1 ++ l2 := by
    rw [hs]
    exact filter_remove _ l1 l2 t
      (fun u hu => all_ne_of_ne _ _ (huniq u hu)) (by rw [ht]; simp)
  have hstep : step s (Event.cosmicClosed cid) =
      drop_match_if_stale { s with toplevels := l1 ++ l2 } := by
    simp only [step, remove_by_cosmic, hfil]
  rw [hstep]
  refine ⟨?_, ?_, ?_, ?_⟩
  · rw [drop_match_toplevels]
  · intro hm
    rw [drop_match_of_none { s with toplevels := l1 ++ l2 } hm]
    exact hm
  · intro m hm htc
    have hany : (l1 ++ l2).any (fun tracked => tracked.cosmic.any (fun c => c == m))
        = false :=
      List.any_eq_false.2 (fun u hu hp => by
        rw [cosmic_any_eq_false u.cosmic m (huniqm m hm htc u hu)] at hp
        exact absurd hp (by simp))
    simp [drop_match_if_stale, hm, hany]
  · intro m hm htc
    obtain ⟨u, hu, huc⟩ := hheld m hm
    rw [hs] at hu
    have hu2 : u ∈ l1 ++ l2 := by
      rcases List.mem_append.1 hu with h1 | h2
      · exact List.mem_append.2 (Or.inl h1)
      · rcases List.mem_cons.1 h2 with rfl | h3
        · exact absurd huc htc
        · exact List.mem_append.2 (Or.inr h3)
    have hany : (l1 ++ l2).any (fun tracked => tracked.cosmic.any (fun c => c == m))
        = true :=
      List.any_eq_true.2 ⟨u, hu2, by rw [huc]; simp⟩
    simp [drop_match_if_stale, hm, hany]

/-- Claim C5: Processing a "closed" event for either handle of a tracked
record removes exactly that record and leaves all other records
unchanged, and clears the match slot if and only if the removed record
held the currently matched rich handle.  The uniqueness hypotheses
(`huniq`, `huniqm`: no other record shares the closed handle id or the
matched cosmic id) and the holder hypothesis (`hheld`: a matched handle is
held by some record) are protocol/reachability facts of the dispatch
semantics. -/
theorem C5_closed_removal :
    (∀ (s : State) (l1 l2 : List TrackedToplevel) (t : TrackedToplevel) (fid : Nat),
      s.toplevels = l1 ++ t :: l2 →
      t.foreign = some fid →
      (∀ u ∈ l1 ++ l2, u.foreign ≠ some fid) →
      (∀ m, s.match_handle = some m → ∃ u ∈ s.toplevels, u.cosmic = some m) →
      (∀ m, s.match_handle = some m → t.cosmic = some m →
        ∀ u ∈ l1 ++ l2, u.cosmic ≠ some m) →
      (step s (Event.foreignClosed fid)).toplevels = l1 ++ l2 ∧
      (s.match_handle = none → (step s (Event.foreignClosed fid)).match_handle = none) ∧
      (∀ m, s.match_handle = some m → t.cosmic = some m →
        (step s (Event.foreignClosed fid)).match_handle = none) ∧
      (∀ m, s.match_handle = some m → t.cosmic ≠ some m →
        (step s (Event.foreignClosed fid)).match_handle = some m)) ∧
    (∀ (s : State) (l1 l2 : List TrackedToplevel) (t : TrackedToplevel) (cid : Nat),
      s.toplevels = l1 ++ t :: l2 →
      t.cosmic = some cid →
      (∀ u ∈ l1 ++ l2, u.cosmic ≠ some cid) →
      (∀ m, s.match_handle = some m → ∃ u ∈ s.toplevels, u.cosmic = some m) →
      (∀ m, s.match_handle = some m → t.cosmic = some m →
        ∀ u ∈ l1 ++ l2, u.cosmic ≠ some m) →
      (step s (Event.cosmicClosed cid)).toplevels = l1 ++ l2 ∧
      (s.match_handle = none → (step s (Event.cosmicClosed cid)).match_handle = none) ∧
      (∀ m, s.match_handle = some m → t.cosmic = some m →
        (step s (Event.cosmicClosed cid)).match_handle = none) ∧
      (∀ m, s.match_handle = some m → t.cosmic ≠ some m →
        (step s (Event.cosmicClosed cid)).match_handle = some m)) :=
  ⟨closed_foreign_removal, closed_cosmic_removal⟩

/-- Witness for C5: a single tracked record (foreign handle 1, rich handle
2) holds the matched handle 2; closing foreign handle 1 empties the
registry and clears the match slot. -/
theorem C5_closed_removal_witness :
    (step { target_lc := "x".data, seat := none, info := none, mgr := none,
            foreign_list := none,
            toplevels := [{ foreign := some 1, cosmic := some 2,
                            app_id := some "x".data }],
            match_handle := some 2 } (Event.foreignClosed 1)).match_handle = none :=
  (C5_closed_removal.1
    { target_lc := "x".data, seat := none, info := none, mgr := none,
      foreign_list := none,
      toplevels := [{ foreign := some 1, cosmic := some 2, app_id := some "x".data }],
      match_handle := some 2 }
    [] []
    { foreign := some 1, cosmic := some 2, app_id := some "x".data } 1
    rfl rfl
    (fun u hu => absurd hu (by simp))
    (fun m hm => ⟨{ foreign := some 1, cosmic := some 2, app_id := some "x".data },
      List.mem_cons_self _ _, hm⟩)
    (fun m hm htc u hu => absurd hu (by simp))).2.2.1 2 rfl rfl

/-- The loop never performs more roundtrips than its fuel. -/
theorem discovery_loop_le (script : Nat → List Event) :
    ∀ (fuel : Nat) (s : State) (i : Nat),
      (discovery_loop script s i fuel).2 ≤ fuel := by
  intro fuel
  induction fuel with
  | zero => intro s i; exact Nat.le_refl 0
  | succ f ih =>
    intro s i
    simp only [discovery_loop]
    cases hb : (run s (script i)).match_handle.isSome with
    | true => simp [hb]
    | false =>
      simp only [hb, Bool.false_eq_true, if_false]
      exact Nat.succ_le_succ (ih (run s (script i)) (i + 1))

/-- With positive fuel the loop always performs at least one roundtrip. -/
theorem discovery_loop_pos (script : Nat → List Event) (f : Nat) (s : State) (i : Nat) :
    1 ≤ (discovery_loop script s i (f + 1)).2 := by
  simp only [discovery_loop]
  cases hb : (run s (script i)).match_handle.isSome with
  | true => simp [hb]
  | false => simp [hb]

/-- Early exit: if the cumulative state first has a set match slot after
round `k` and `k` fits in the fuel, the loop performs exactly `k`
roundtrips and stops in that cumulative state. -/
theorem discovery_loop_early (script : Nat → List Event) :
    ∀ (k : Nat) (s : State) (i : Nat) (fuel : Nat),
      1 ≤ k → k ≤ fuel →
      (∀ j, j < k → 1 ≤ j → (runScript script s i j).match_handle = none) →
      (runScript script s i k).match_handle.isSome = true →
      discovery_loop script s i fuel = (runScript script s i k, k) := by
  intro k
  induction k with
  | zero => intro s i fuel h1 _ _ _; exact absurd h1 (by omega)
  | succ k ih =>
    intro s i fuel h1 hf hnone hsome
    obtain ⟨f, rfl⟩ : ∃ f, fuel = f + 1 := ⟨fuel - 1, by omega⟩
    cases k with
    | zero =>
      have hb : (run s (script i)).match_handle.isSome = true := by
        simpa [runScript] using hsome
      simp [discovery_loop, hb, runScript]
    | succ k0 =>
      have hn1 : (run s (script i)).match_handle = none := by
        have := hnone 1 (by omega) (by omega)
        simpa [runScript] using this
      have hrec := ih (run s (script i)) (i + 1) f (by omega) (by omega)
        (fun j hj hj1 => by
          have := hnone (j + 1) (by omega) (by omega)
          simpa [runScript] using this)
        (by simpa [runScript] using hsome)
      simp only [discovery_loop, hn1, Option.isSome_none, Bool.false_eq_true, if_false,
        hrec]
      simp [runScript]

/-- With the required globals bound, the modelled `main` performs exactly
the discovery loop's number of roundtrips and exactly one non-blocking
drain before the activate-or-fallback decision. -/
theorem mainModel_rounds_drains (app_id : List Char) (launchOpt : Option (List Char))
    (b : Binds) (script : Nat → List Event) (pending : List Event)
    (launch : LaunchOutcome) (version mgrId : Nat)
    (hinfo : b.info = some version) (hmgr : b.mgr = some mgrId) :
    (mainModel app_id launchOpt b script pending launch).rounds =
      (discoveryRounds script (initialState app_id b version mgrId)).2 ∧
    (mainModel app_id launchOpt b script pending launch).drains_before_decision = 1 := by
  constructor
  · simp only [mainModel, hinfo, hmgr]
    split
    · rfl
    · split <;> rfl
  · simp only [mainModel, hinfo, hmgr]
    split
    · rfl
    · split <;> rfl

/-- Claim C4: The convergence controller performs at most 5 blocking
roundtrips; it checks the match slot after each round and stops as soon as
it is set, so a match first established during round `k ≤ 5` means exactly
`k` rounds run; and (with the required globals bound) `main` performs
exactly one non-blocking drain of already-queued events between the loop
and the activate-or-fallback decision. -/
theorem C4_convergence_budget :
    (∀ (script : Nat → List Event) (s : State), (discoveryRounds script s).2 ≤ 5) ∧
    (∀ (script : Nat → List Event) (s : State) (k : Nat),
      1 ≤ k → k ≤ 5 →
      (∀ j, j < k → 1 ≤ j → (runScript script s 0 j).match_handle = none) →
      (runScript script s 0 k).match_handle.isSome = true →
      discoveryRounds script s = (runScript script s 0 k, k)) ∧
    (∀ (app_id : List Char) (launchOpt : Option (List Char)) (b : Binds)
      (script : Nat → List Event) (pending : List Event) (launch : LaunchOutcome)
      (version mgrId : Nat),
      b.info = some version → b.mgr = some mgrId →
      (mainModel app_id launchOpt b script pending launch).rounds =
        (discoveryRounds script (initialState app_id b version mgrId)).2 ∧
      (mainModel app_id launchOpt b script pending launch).drains_before_decision
        = 1) := by
  refine ⟨?_, ?_, ?_⟩
  · intro script s
    exact discovery_loop_le script 5 s 0
  · intro script s k h1 h5 hnone hsome
    exact discovery_loop_early script k s 0 5 h1 h5 hnone hsome
  · intro app_id launchOpt b script pending launch version mgrId hinfo hmgr
    exact mainModel_rounds_drains app_id launchOpt b script pending launch
      version mgrId hinfo hmgr

/-- Witness for C4: a compositor script that delivers the satisfying
identifier in round 2 makes the loop stop after exactly 2 rounds. -/
theorem C4_convergence_budget_witness :
    discoveryRounds (fun i => if i == 1 then [Event.cosmicAppId 1 "x".data] else [])
        (State.new "x".data) =
      (runScript (fun i => if i == 1 then [Event.cosmicAppId 1 "x".data] else [])
        (State.new "x".data) 0 2, 2) :=
  C4_convergence_budget.2.1
    (fun i => if i == 1 then [Event.cosmicAppId 1 "x".data] else [])
    (State.new "x".data) 2 (by decide) (by decide) (by decide) (by decide)

/-- Claim C6: With the required globals bound, the terminal action is
exclusive and single: when the match slot, the seat and the manager are
all present at the decision point, the issued actions are exactly one
activation request carrying that handle and seat (and no spawn); when any
of the three is missing, exactly one fallback spawn of the launch command
(and no activation); in every case exactly one action is issued — never
both kinds, never more than one. -/
theorem C6_exclusive_terminal_action :
    ∀ (app_id : List Char) (launchOpt : Option (List Char)) (b : Binds)
      (script : Nat → List Event) (pending : List Event) (launch : LaunchOutcome)
      (version mgrId : Nat),
      b.info = some version → b.mgr = some mgrId →
      (∀ handle seatId g,
        (decisionState app_id b version mgrId script pending).match_handle = some handle →
        (decisionState app_id b version mgrId script pending).seat = some seatId →
        (decisionState app_id b version mgrId script pending).mgr = some g →
        (mainModel app_id launchOpt b script pending launch).actions =
          [Action.activate handle seatId]) ∧
      ((decisionState app_id b version mgrId script pending).match_handle = none ∨
        (decisionState app_id b version mgrId script pending).seat = none ∨
        (decisionState app_id b version mgrId script pending).mgr = none →
        (mainModel app_id launchOpt b script pending launch).actions =
          [Action.spawn (launchOpt.getD (launch_cmd_default app_id))]) ∧
      (mainModel app_id launchOpt b script pending launch).actions.length = 1 := by
  intro app_id launchOpt b script pending launch version mgrId hinfo hmgr
  refine ⟨?_, ?_, ?_⟩
  · intro handle seatId g h1 h2 h3
    simp only [mainModel, hinfo, hmgr, h1, h2, h3]
  · intro hmiss
    rcases hmiss with h | h | h
    · simp only [mainModel, hinfo, hmgr, h]
      cases launch <;> rfl
    · cases hm : (decisionState app_id b version mgrId script pending).match_handle with
      | none =>
        simp only [mainModel, hinfo, hmgr, hm]
        cases launch <;> rfl
      | some y =>
        simp only [mainModel, hinfo, hmgr, hm, h]
        cases launch <;> rfl
    · cases hm : (decisionState app_id b version mgrId script pending).match_handle with
      | none =>
        simp only [mainModel, hinfo, hmgr, hm]
        cases launch <;> rfl
      | some y =>
        cases hs2 : (decisionState app_id b version mgrId script pending).seat with
        | none =>
          simp only [mainModel, hinfo, hmgr, hm, hs2]
          cases launch <;> rfl
        | some z =>
          simp only [mainModel, hinfo, hmgr, hm, hs2, h]
          cases launch <;> rfl
  · simp only [mainModel, hinfo, hmgr]
    split
    · rfl
    · split <;> rfl

/-- Witness for C6: seat 1, info v3, manager 4 bound; the first roundtrip
delivers a satisfying standalone rich handle 9, so exactly one activation
request `activate(9, seat 1)` is issued. -/
theorem C6_exclusive_terminal_action_witness :
    (mainModel "x".data none
      { seat := some 1, info := some 3, mgr := some 4, foreignList := some 5 }
      (fun _ => [Event.cosmicAppId 9 "x".data]) [] (LaunchOutcome.exited 0)).actions =
      [Action.activate 9 1] :=
  (C6_exclusive_terminal_action "x".data none
    { seat := some 1, info := some 3, mgr := some 4, foreignList := some 5 }
    (fun _ => [Event.cosmicAppId 9 "x".data]) [] (LaunchOutcome.exited 0) 3 4
    rfl rfl).1 9 1 4 (by decide) (by decide) (by decide)

/-- Claim C7: A failed bind of a required global (the rich toplevel-info
object or the activation-manager object) makes the process exit non-zero
before any dispatch round runs and with no fallback spawned; a failed bind
of an optional global (the seat or the generic foreign-toplevel-list) only
adds a warning and execution still reaches the discovery rounds. -/
theorem C7_bind_failure_handling :
    (∀ (app_id : List Char) (launchOpt : Option (List Char)) (b : Binds)
      (script : Nat → List Event) (pending : List Event) (launch : LaunchOutcome),
      b.info = none →
      exitCode (mainModel app_id launchOpt b script pending launch).result ≠ 0 ∧
      (mainModel app_id launchOpt b script pending launch).rounds = 0 ∧
      (mainModel app_id launchOpt b script pending launch).actions = []) ∧
    (∀ (app_id : List Char) (launchOpt : Option (List Char)) (b : Binds)
      (script : Nat → List Event) (pending : List Event) (launch : LaunchOutcome)
      (version : Nat),
      b.info = some version → b.mgr = none →
      exitCode (mainModel app_id launchOpt b script pending launch).result ≠ 0 ∧
      (mainModel app_id launchOpt b script pending launch).rounds = 0 ∧
      (mainModel app_id launchOpt b script pending launch).actions = []) ∧
    (∀ (app_id : List Char) (launchOpt : Option (List Char)) (b : Binds)
      (script : Nat → List Event) (pending : List Event) (launch : LaunchOutcome)
      (version mgrId : Nat),
      b.info = some version → b.mgr = some mgrId → b.seat = none →
      1 ≤ (mainModel app_id launchOpt b script pending launch).warnings ∧
      1 ≤ (mainModel app_id launchOpt b script pending launch).rounds) ∧
    (∀ (app_id : List Char) (launchOpt : Option (List Char)) (b : Binds)
      (script : Nat → List Event) (pending : List Event) (launch : LaunchOutcome)
      (version mgrId : Nat),
      b.info = some version → b.mgr = some mgrId → b.foreignList = none →
      1 ≤ (mainModel app_id launchOpt b script pending launch).warnings ∧
      1 ≤ (mainModel app_id launchOpt b script pending launch).rounds) := by
  have hrounds : ∀ (app_id : List Char) (launchOpt : Option (List Char)) (b : Binds)
      (script : Nat → List Event) (pending : List Event) (launch : LaunchOutcome)
      (version mgrId : Nat), b.info = some version → b.mgr = some mgrId →
      1 ≤ (mainModel app_id launchOpt b script pending launch).rounds := by
    intro app_id launchOpt b script pending launch version mgrId hinfo hmgr
    have hmain := (mainModel_rounds_drains app_id launchOpt b script pending launch
      version mgrId hinfo hmgr).1
    rw [hmain]
    exact discovery_loop_pos script 4 (initialState app_id b version mgrId) 0
  refine ⟨?_, ?_, ?_, ?_⟩
  · intro app_id launchOpt b script pending launch hinfo
    refine ⟨?_, ?_, ?_⟩ <;> simp [mainModel, hinfo, exitCode]
  · intro app_id launchOpt b script pending launch version hinfo hmgr
    refine ⟨?_, ?_, ?_⟩ <;> simp [mainModel, hinfo, hmgr, exitCode]
  · intro app_id launchOpt b script pending launch version mgrId hinfo hmgr hseat
    refine ⟨?_, hrounds app_id launchOpt b script pending launch version mgrId hinfo hmgr⟩
    simp only [mainModel, hinfo, hmgr, hseat]
    split
    · exact Nat.le_trans (Nat.le_add_right 1 _) (Nat.le_add_right _ _)
    · split <;> exact Nat.le_trans (Nat.le_add_right 1 _) (Nat.le_add_right _ _)
  · intro app_id launchOpt b script pending launch version mgrId hinfo hmgr hforeign
    refine ⟨?_, hrounds app_id launchOpt b script pending launch version mgrId hinfo hmgr⟩
    simp only [mainModel, hinfo, hmgr, hforeign]
    split
    · exact Nat.le_add_left 1 _
    · split <;> exact Nat.le_add_left 1 _

/-- Witness for C7: with the required info global unbound, the modelled
run exits with code 1 after zero rounds and no actions. -/
theorem C7_bind_failure_handling_witness :
    exitCode (mainModel "x".data none
      { seat := some 1, info := none, mgr := some 4, foreignList := some 5 }
      (fun _ => []) [] (LaunchOutcome.exited 0)).result ≠ 0 ∧
    (mainModel "x".data none
      { seat := some 1, info := none, mgr := some 4, foreignList := some 5 }
      (fun _ => []) [] (LaunchOutcome.exited 0)).rounds = 0 ∧
    (mainModel "x".data none
      { seat := some 1, info := none, mgr := some 4, foreignList := some 5 }
      (fun _ => []) [] (LaunchOutcome.exited 0)).actions = [] :=
  C7_bind_failure_handling.1 "x".data none
    { seat := some 1, info := none, mgr := some 4, foreignList := some 5 }
    (fun _ => []) [] (LaunchOutcome.exited 0) rfl

/-- On the fallback path (match slot or seat missing at the decision), the
process result is exactly the launch outcome's image. -/
theorem mainModel_fallback (app_id : List Char) (launchOpt : Option (List Char))
    (b : Binds) (script : Nat → List Event) (pending : List Event)
    (launch : LaunchOutcome) (version mgrId : Nat)
    (hinfo : b.info = some version) (hmgr : b.mgr = some mgrId)
    (hmiss : (decisionState app_id b version mgrId script pending).match_handle = none ∨
      (decisionState app_id b version mgrId script pending).seat = none) :
    (mainModel app_id launchOpt b script pending launch).result =
      (match launch with
       | .cannotStart msg => Except.error (Err.launchStartFailed msg)
       | .exited code =>
         if code == 0 then Except.ok () else Except.error (Err.launcherExited code)) := by
  rcases hmiss with h | h
  · simp only [mainModel, hinfo, hmgr, h]
    cases launch <;> rfl
  · cases hm : (decisionState app_id b version mgrId script pending).match_handle with
    | none =>
      simp only [mainModel, hinfo, hmgr, hm]
      cases launch <;> rfl
    | some y =>
      simp only [mainModel, hinfo, hmgr, hm, h]
      cases launch <;> rfl

/-- Counterexample to **C8** as stated: with no seat bound (forcing the
fallback path) and the fallback command exiting with status 7, the process
exit code is 1 (the `anyhow` `Err` return from `main`), not 7: the
child's exit status is surfaced in the error message but not propagated as
the process exit status. -/
theorem C8_counterexample :
    exitCode (mainModel "x".data none
      { seat := none, info := some 3, mgr := some 4, foreignList := some 5 }
      (fun _ => []) [] (LaunchOutcome.exited 7)).result = 1 ∧ (1 : Nat) ≠ 7 := by
  refine ⟨by decide, by decide⟩

/-- Claim C8, amended: On the fallback path the process's exit status is
zero iff the launched fallback command succeeds; when the command cannot
start or exits non-zero, the process exits with code 1 (the `anyhow`
error path), carrying the child's status in the error value rather than
using it as the exit code. -/
theorem C8_fallback_exit_amended :
    ∀ (app_id : List Char) (launchOpt : Option (List Char)) (b : Binds)
      (script : Nat → List Event) (pending : List Event) (launch : LaunchOutcome)
      (version mgrId : Nat),
      b.info = some version → b.mgr = some mgrId →
      ((decisionState app_id b version mgrId script pending).match_handle = none ∨
        (decisionState app_id b version mgrId script pending).seat = none) →
      ((exitCode (mainModel app_id launchOpt b script pending launch).result = 0 ↔
          launch = LaunchOutcome.exited 0) ∧
        (∀ code, launch = LaunchOutcome.exited code → code ≠ 0 →
          (mainModel app_id launchOpt b script pending launch).result =
            Except.error (Err.launcherExited code)) ∧
        (∀ msg, launch = LaunchOutcome.cannotStart msg →
          (mainModel app_id launchOpt b script pending launch).result =
            Except.error (Err.launchStartFailed msg))) := by
  intro app_id launchOpt b script pending launch version mgrId hinfo hmgr hmiss
  have hres := mainModel_fallback app_id launchOpt b script pending launch
    version mgrId hinfo hmgr hmiss
  refine ⟨?_, ?_, ?_⟩
  · rw [hres]
    cases launch with
    | cannotStart msg => simp [exitCode]
    | exited code =>
      by_cases hc : code = 0
      · subst hc
        simp [exitCode]
      · simp [exitCode, hc]
  · intro code hco hne
    subst hco
    rw [hres]
    simp [hne]
  · intro msg hco
    subst hco
    rw [hres]

/-- Witness for C8 (amended): seat unbound, fallback command succeeds,
process exits 0. -/
theorem C8_fallback_exit_amended_witness :
    exitCode (mainModel "x".data none
      { seat := none, info := some 3, mgr := some 4, foreignList := some 5 }
      (fun _ => []) [] (LaunchOutcome.exited 0)).result = 0 ↔
      LaunchOutcome.exited 0 = LaunchOutcome.exited 0 :=
  (C8_fallback_exit_amended "x".data none
    { seat := none, info := some 3, mgr := some 4, foreignList := some 5 }
    (fun _ => []) [] (LaunchOutcome.exited 0) 3 4 rfl rfl (by decide)).1

end AppFocus
